import Mathlib

/-!
Verification development for the job-tracking and background-extraction
execution model of the Lead-Generation-Tool repository.

The definitions below are a shallow embedding of the two HTTP wrappers:

* `src/google_map_flask_api.py` (the `ScrapingJob` tracker: `run_scraping_job`,
  `start_scraping`, `get_job_status`, `get_results`, `download_csv`), and
* `src/New folder/flask_backend_api.py` (the `ExtractionJob` tracker:
  `run_extraction`, `start_extraction`, and its corresponding endpoints).

Python dicts holding string values are embedded as association lists
`List (String × String)`; `dict.get(k, d)` is `(rget r k).getD d`.
The external scraper (`MapsToWebsiteScraper` / `BusinessLeadExtractor`) is an
opaque, possibly-failing collaborator: its behaviour is abstracted as an
outcome value saying whether (and at which call site) it raised, which is
exactly the information the tracker code can observe through `try/except`.
Timestamps are modelled by their presence (`Option Unit`), since only
set/unset is ever branched on.  The Python `csv` module's `DictWriter`
(default dialect: comma delimiter, double-quote escaping, `\r\n` terminator,
minimal quoting) is embedded at the character-list level.
-/

/-- Job lifecycle states, as in the comment `# pending, running, completed, failed`. -/
inductive Status where
  | pending
  | running
  | completed
  | failed
deriving DecidableEq

/-- A scraped record: a Python dict from field names to string values. -/
abbrev RawRecord := List (String × String)

/-- `r.get(k)`: first value bound to `k`, if any. -/
def rget (r : RawRecord) (k : String) : Option String :=
  match r with
  | [] => none
  | (k2, v) :: rest => if k2 = k then some v else rget rest k

/-- Python truthiness of `r.get(k)` for string-valued dicts:
missing keys and empty strings are falsy. -/
def truthy (o : Option String) : Bool := decide (o.getD "" ≠ "")

/-- The whitespace characters stripped by Python's `str.strip()`. -/
def pyWs (c : Char) : Bool :=
  c = ' ' || c = '\t' || c = '\n' || c = '\r' || c = '\x0b' || c = '\x0c'

/-- `s.strip()`: drop leading and trailing whitespace. -/
def pyStrip (s : String) : String :=
  ⟨((s.data.dropWhile pyWs).reverse.dropWhile pyWs).reverse⟩

/-- The `ScrapingJob` object of `google_map_flask_api.py`. -/
structure Job where
  job_id : String
  location : String
  country : String
  state : String
  business_type : String
  max_results : Int
  status : Status
  progress : Nat
  results : List RawRecord
  error_message : Option String
  completed_at : Option Unit
deriving DecidableEq

/-- `ScrapingJob.__init__`. -/
def mkJob (job_id location country state business_type : String)
    (max_results : Int) : Job :=
  { job_id := job_id, location := location, country := country, state := state,
    business_type := business_type, max_results := max_results,
    status := .pending, progress := 0, results := [],
    error_message := none, completed_at := none }

/-- The per-field cleaning loop of `run_scraping_job`: every cleaned result
has exactly the eight expected keys, defaulting to the empty string. -/
def csvFieldnames : List String :=
  ["name", "rating", "category", "address", "phone", "website", "email", "linkedin"]

/-- One cleaned result dict (`cleaned_result` in `run_scraping_job`). -/
def cleanResult (r : RawRecord) : RawRecord :=
  csvFieldnames.map fun f => (f, (rget r f).getD "")

/-- What the opaque scraper did during `run_scraping_job`, positioned by which
call raised.  `failInit`: the `MapsToWebsiteScraper(...)` constructor raised
(progress 10 at that point); `failSearch`: `set_max_results`/`search_on_maps`
raised (progress 20); `failExtract`: `scroll_hover_and_extract` raised
(progress 40); `success`: every call returned; `failClose`: the body succeeded
(job already marked completed) but `scraper.close()` in the `finally` block
raised, which the outer `except` then handles. -/
inductive ScrapeOutcome where
  | success (results : List RawRecord)
  | failInit (msg : String)
  | failSearch (msg : String)
  | failExtract (msg : String)
  | failClose (results : List RawRecord) (msg : String)
deriving DecidableEq

/-- The error message the outer `except Exception as e` block observes, if any. -/
def failureMsg : ScrapeOutcome → Option String
  | .success _ => none
  | .failInit m => some m
  | .failSearch m => some m
  | .failExtract m => some m
  | .failClose _ m => some m

/-- The snapshots of the job after each field assignment performed by
`run_scraping_job`, in program order.  The `except` block runs
`job.status = 'failed'`, `job.error_message = str(e)`, `job.progress = 0`
and does not touch `completed_at`. -/
def runTrace (j : Job) (o : ScrapeOutcome) : List Job :=
  let s1 := { j with status := .running }
  let s2 := { s1 with progress := 10 }
  let s3 := { s2 with progress := 20 }
  let s4 := { s3 with progress := 40 }
  let s5 := { s4 with progress := 90 }
  match o with
  | .failInit m =>
      [s1, s2, { s2 with status := .failed },
       { s2 with status := .failed, error_message := some m },
       { s2 with status := .failed, error_message := some m, progress := 0 }]
  | .failSearch m =>
      [s1, s2, s3, { s3 with status := .failed },
       { s3 with status := .failed, error_message := some m },
       { s3 with status := .failed, error_message := some m, progress := 0 }]
  | .failExtract m =>
      [s1, s2, s3, s4, { s4 with status := .failed },
       { s4 with status := .failed, error_message := some m },
       { s4 with status := .failed, error_message := some m, progress := 0 }]
  | .success recs =>
      let s6 := { s5 with results := recs.map cleanResult }
      let s7 := { s6 with status := .completed }
      let s8 := { s7 with progress := 100 }
      let s9 := { s8 with completed_at := some () }
      [s1, s2, s3, s4, s5, s6, s7, s8, s9]
  | .failClose recs m =>
      let s6 := { s5 with results := recs.map cleanResult }
      let s7 := { s6 with status := .completed }
      let s8 := { s7 with progress := 100 }
      let s9 := { s8 with completed_at := some () }
      [s1, s2, s3, s4, s5, s6, s7, s8, s9,
       { s9 with status := .failed },
       { s9 with status := .failed, error_message := some m },
       { s9 with status := .failed, error_message := some m, progress := 0 }]

/-- The job state once `run_scraping_job` has returned. -/
def runJob (j : Job) (o : ScrapeOutcome) : Job := (runTrace j o).getLastD j

/-- The statuses a reader can observe while the execution unit runs. -/
def statusTrace (j : Job) (o : ScrapeOutcome) : List Status :=
  (runTrace j o).map Job.status

/-- Forward order on statuses: `pending → running → {completed, failed}`. -/
def statusRank : Status → Nat
  | .pending => 0
  | .running => 1
  | .completed => 2
  | .failed => 2

/-- The in-memory job table `scraping_jobs` (a Python dict keyed by job id). -/
abbrev JobTable := List (String × Job)

/-- `scraping_jobs.get(job_id)`. -/
def findJob : JobTable → String → Option Job
  | [], _ => none
  | (k, j) :: rest, id => if k = id then some j else findJob rest id

/-- The body of a POST `/api/scrape` request, after JSON/`int` glue. -/
structure ScrapeRequest where
  location : String
  country : String
  state : String
  business_type : String
  max_results : Int
deriving DecidableEq

/-- The `max_results not in [10, 20, 50, 80, 100]` whitelist. -/
def allowedMax : List Int := [10, 20, 50, 80, 100]

/-- Responses of the POST `/api/scrape` handler. -/
inductive ScrapeResponse where
  | validationError (msg : String)
  | started (job_id : String)
deriving DecidableEq

/-- HTTP code of a `/api/scrape` response (`400` on validation failure,
`jsonify` default `200` otherwise). -/
def scrapeHttp : ScrapeResponse → Nat
  | .validationError _ => 400
  | .started _ => 200

/-- `start_scraping`: validates the stripped inputs in source order
(location, business type, result cap), and only on success stores a fresh
pending job and spawns its execution unit.  `newId` stands for the
`uuid.uuid4()` draw. -/
def start_scraping (jobs : JobTable) (req : ScrapeRequest) (newId : String) :
    JobTable × ScrapeResponse :=
  let location := (pyStrip req.location)
  let country := (pyStrip req.country)
  let state := (pyStrip req.state)
  let business_type := (pyStrip req.business_type)
  if location = "" then
    (jobs, .validationError "Location is required")
  else if business_type = "" then
    (jobs, .validationError "Business type is required")
  else if req.max_results ∈ allowedMax then
    ((newId, mkJob newId location country state business_type req.max_results) :: jobs,
     .started newId)
  else
    (jobs, .validationError "Invalid max_results value")

/-- The JSON body built by `get_job_status` (fields absent from a branch are `none`). -/
structure StatusView where
  job_id : String
  status : Status
  progress : Nat
  completed_at : Option Unit
  results_count : Option Nat
  emails_found : Option Nat
  websites_found : Option Nat
  error_message : Option String
deriving DecidableEq

/-- Responses of GET `/api/status/{job_id}`.  `serverError` is the uncaught
`AttributeError` Flask turns into a 500 when the completed branch calls
`job.completed_at.isoformat()` while `completed_at` is still `None`. -/
inductive StatusResponse where
  | notFound
  | serverError
  | ok (v : StatusView)
deriving DecidableEq

/-- HTTP code of a `/api/status` response. -/
def statusHttp : StatusResponse → Nat
  | .notFound => 404
  | .serverError => 500
  | .ok _ => 200

/-- `get_job_status`. -/
def get_job_status (jobs : JobTable) (id : String) : StatusResponse :=
  match findJob jobs id with
  | none => .notFound
  | some job =>
    if job.status = .completed then
      match job.completed_at with
      | none => .serverError
      | some _ =>
        .ok { job_id := id, status := job.status, progress := job.progress,
              completed_at := some (),
              results_count := some job.results.length,
              emails_found := some (job.results.countP fun r => truthy (rget r "email")),
              websites_found := some (job.results.countP fun r => truthy (rget r "website")),
              error_message := none }
    else if job.status = .failed then
      .ok { job_id := id, status := job.status, progress := job.progress,
            completed_at := none, results_count := none,
            emails_found := none, websites_found := none,
            error_message := job.error_message }
    else
      .ok { job_id := id, status := job.status, progress := job.progress,
            completed_at := none, results_count := none,
            emails_found := none, websites_found := none,
            error_message := none }

/-- The `statistics` object of the `/api/results` body. -/
structure ResultStats where
  total : Nat
  with_emails : Nat
  with_websites : Nat
  with_linkedin : Nat
deriving DecidableEq

/-- The statistics computed by `get_results` over the stored records. -/
def statsOf (results : List RawRecord) : ResultStats :=
  { total := results.length,
    with_emails := results.countP fun r => truthy (rget r "email"),
    with_websites := results.countP fun r => truthy (rget r "website"),
    with_linkedin := results.countP fun r => truthy (rget r "linkedin") }

/-- Responses of GET `/api/results/{job_id}`. -/
inductive ResultsResponse where
  | notFound
  | notReady
  | ok (results : List RawRecord) (stats : ResultStats)
deriving DecidableEq

/-- HTTP code of a `/api/results` response. -/
def resultsHttp : ResultsResponse → Nat
  | .notFound => 404
  | .notReady => 400
  | .ok _ _ => 200

/-- `get_results`. -/
def get_results (jobs : JobTable) (id : String) : ResultsResponse :=
  match findJob jobs id with
  | none => .notFound
  | some job =>
    if job.status = .completed then .ok job.results (statsOf job.results)
    else .notReady

/-! ### The CSV layer (`csv.DictWriter` with the default dialect) -/

/-- A character forcing quoting under `QUOTE_MINIMAL`: the delimiter, the
quote character, or a character of the `\r\n` line terminator. -/
def specialChar (c : Char) : Bool := c = ',' || c = '"' || c = '\r' || c = '\n'

/-- Double every quote character (the escaping applied inside a quoted field). -/
def doubleQuotes : List Char → List Char
  | [] => []
  | c :: rest =>
    if c = '"' then '"' :: '"' :: doubleQuotes rest else c :: doubleQuotes rest

/-- Serialize one field: quote it exactly when it contains a special character. -/
def escapeField (f : List Char) : List Char :=
  if f.any specialChar then '"' :: (doubleQuotes f ++ ['"']) else f

/-- Serialize one row: comma-joined escaped fields plus the `\r\n` terminator. -/
def writeFields : List (List Char) → List Char
  | [] => ['\r', '\n']
  | [f] => escapeField f ++ ['\r', '\n']
  | f :: f2 :: fs => escapeField f ++ ',' :: writeFields (f2 :: fs)

/-- Serialize a sequence of rows (what accumulates in the `StringIO` buffer). -/
def writeTable : List (List (List Char)) → List Char
  | [] => []
  | r :: rs => writeFields r ++ writeTable rs

/-- Read a quoted field body: stop at a lone quote, unescape doubled quotes.
Returns the field content and the input remaining after the closing quote. -/
def readQuoted : List Char → List Char × List Char
  | [] => ([], [])
  | [c] => if c = '"' then ([], []) else ([c], [])
  | c :: d :: rest =>
    if c = '"' then
      if d = '"' then
        let p := readQuoted rest
        ('"' :: p.1, p.2)
      else ([], d :: rest)
    else
      let p := readQuoted (d :: rest)
      (c :: p.1, p.2)

/-- Read an unquoted field up to a delimiter, a row terminator, or the end of
input.  The boolean is true when the row ended. -/
def readUnquoted : List Char → List Char × List Char × Bool
  | [] => ([], [], true)
  | [c] => if c = ',' then ([], [], false) else ([c], [], true)
  | c :: d :: rest =>
    if c = ',' then ([], d :: rest, false)
    else if c = '\r' then
      if d = '\n' then ([], rest, true)
      else
        let p := readUnquoted (d :: rest)
        (c :: p.1, p.2.1, p.2.2)
    else
      let p := readUnquoted (d :: rest)
      (c :: p.1, p.2.1, p.2.2)

/-- After a closing quote: consume the delimiter or row terminator. -/
def afterQuoted (f r : List Char) : List Char × List Char × Bool :=
  match r with
  | [] => (f, [], true)
  | [c] => if c = ',' then (f, [], false) else (f, [c], true)
  | c :: d :: rest =>
    if c = ',' then (f, d :: rest, false)
    else if c = '\r' then
      if d = '\n' then (f, rest, true)
      else (f, c :: d :: rest, true)
    else (f, c :: d :: rest, true)

/-- Read one field, quoted or not. -/
def readField (l : List Char) : List Char × List Char × Bool :=
  match l with
  | [] => ([], [], true)
  | c :: rest =>
    if c = '"' then
      let p := readQuoted rest
      afterQuoted p.1 p.2
    else readUnquoted (c :: rest)

/-- Read the fields of one row (fuelled; each field consumes input). -/
def readRowAux : Nat → List Char → List (List Char) × List Char
  | 0, l => ([], l)
  | fuel + 1, l =>
    let p := readField l
    if p.2.2 then ([p.1], p.2.1)
    else
      let q := readRowAux fuel p.2.1
      (p.1 :: q.1, q.2)

/-- Read one row. -/
def readRow (l : List Char) : List (List Char) × List Char :=
  readRowAux (l.length + 1) l

/-- Read all rows (fuelled; each row consumes input). -/
def parseRowsAux : Nat → List Char → List (List (List Char))
  | 0, _ => []
  | fuel + 1, l =>
    if l.isEmpty then []
    else
      let p := readRow l
      p.1 :: parseRowsAux fuel p.2

/-- Parse a complete CSV character stream into rows of fields. -/
def parseCsv (l : List Char) : List (List (List Char)) := parseRowsAux l.length l

/-- The header row written by `writer.writeheader()`. -/
def headerRow : List (List Char) := csvFieldnames.map String.data

/-- The row written for one record:
`{field: result.get(field, '') for field in fieldnames}`. -/
def recordCsvRow (r : RawRecord) : List (List Char) :=
  csvFieldnames.map fun f => ((rget r f).getD "").data

/-- The full CSV stream `download_csv` builds for a job's records. -/
def downloadContent (results : List RawRecord) : List Char :=
  writeTable (headerRow :: results.map recordCsvRow)

/-- Responses of GET `/api/download/{job_id}`. -/
inductive DownloadResponse where
  | notFound
  | notReady
  | csvFile (content : List Char)
deriving DecidableEq

/-- HTTP code of a `/api/download` response. -/
def downloadHttp : DownloadResponse → Nat
  | .notFound => 404
  | .notReady => 400
  | .csvFile _ => 200

/-- `download_csv`. -/
def download_csv (jobs : JobTable) (id : String) : DownloadResponse :=
  match findJob jobs id with
  | none => .notFound
  | some job =>
    if job.status = .completed then .csvFile (downloadContent job.results)
    else .notReady

/-! ### The `flask_backend_api.py` variant (`ExtractionJob`) -/

/-- The `ExtractionJob` object of `flask_backend_api.py`. -/
structure BJob where
  job_id : String
  city : String
  industries : List String
  max_results : Int
  status : Status
  progress : Nat
  results : List RawRecord
  stats : List (String × String)
  error_message : Option String
  completed_at : Option Unit
deriving DecidableEq

/-- `ExtractionJob.__init__`. -/
def mkBJob (job_id city : String) (industries : List String) (max_results : Int) : BJob :=
  { job_id := job_id, city := city, industries := industries,
    max_results := max_results, status := .pending, progress := 0,
    results := [], stats := [], error_message := none, completed_at := none }

/-- What the opaque `BusinessLeadExtractor` did during `run_extraction`:
the constructor raised (progress 10), `extract_leads()` raised (progress 20),
or both returned. -/
inductive ExtractOutcome where
  | success (leads : List RawRecord) (stats : List (String × String))
  | failInit (msg : String)
  | failExtract (msg : String)
deriving DecidableEq

/-- The error message `run_extraction`'s `except` block observes, if any. -/
def bFailureMsg : ExtractOutcome → Option String
  | .success _ _ => none
  | .failInit m => some m
  | .failExtract m => some m

/-- The snapshots of the job after each field assignment of `run_extraction`. -/
def runBTrace (j : BJob) (o : ExtractOutcome) : List BJob :=
  let s1 := { j with status := .running }
  let s2 := { s1 with progress := 10 }
  let s3 := { s2 with progress := 20 }
  match o with
  | .failInit m =>
      [s1, s2, { s2 with status := .failed },
       { s2 with status := .failed, error_message := some m },
       { s2 with status := .failed, error_message := some m, progress := 0 }]
  | .failExtract m =>
      [s1, s2, s3, { s3 with status := .failed },
       { s3 with status := .failed, error_message := some m },
       { s3 with status := .failed, error_message := some m, progress := 0 }]
  | .success leads stats =>
      let s4 := { s3 with progress := 90 }
      let s5 := { s4 with results := leads }
      let s6 := { s5 with stats := stats }
      let s7 := { s6 with status := .completed }
      let s8 := { s7 with progress := 100 }
      let s9 := { s8 with completed_at := some () }
      [s1, s2, s3, s4, s5, s6, s7, s8, s9]

/-- The job state once `run_extraction` has returned. -/
def runBJob (j : BJob) (o : ExtractOutcome) : BJob := (runBTrace j o).getLastD j

/-- The in-memory job table `extraction_jobs`. -/
abbrev BJobTable := List (String × BJob)

/-- `extraction_jobs.get(job_id)`. -/
def findBJob : BJobTable → String → Option BJob
  | [], _ => none
  | (k, j) :: rest, id => if k = id then some j else findBJob rest id

/-- The body of a POST `/api/extract` request, after JSON/`int` glue. -/
structure ExtractRequest where
  city : String
  industries : List String
  maxResults : Int
deriving DecidableEq

/-- `start_extraction`: validates the stripped city and the industry list in
source order; the result cap is parsed but not checked against any set or
range.  `newId` stands for the `uuid.uuid4()` draw. -/
def start_extraction (jobs : BJobTable) (req : ExtractRequest) (newId : String) :
    BJobTable × ScrapeResponse :=
  let city := (pyStrip req.city)
  if city = "" then
    (jobs, .validationError "City is required")
  else if req.industries = [] then
    (jobs, .validationError "At least one industry must be selected")
  else
    ((newId, mkBJob newId city req.industries req.maxResults) :: jobs,
     .started newId)

/-- `get_results` of `flask_backend_api.py` (stats body field elided). -/
def bget_results (jobs : BJobTable) (id : String) : ResultsResponse :=
  match findBJob jobs id with
  | none => .notFound
  | some job =>
    if job.status = .completed then .ok job.results (statsOf job.results)
    else .notReady

/-- The source record keys `download_csv` of `flask_backend_api.py` reads,
in the order of its CSV columns (note `email` is filled from the record's
`emails_found` key). -/
def bCsvSourceKeys : List String :=
  ["name", "industry", "location", "emails_found", "revenue", "website", "phone",
   "extraction_date"]

/-- The CSV column header of `flask_backend_api.py`'s `download_csv`. -/
def bCsvFieldnames : List String :=
  ["name", "industry", "location", "email", "revenue", "website", "phone",
   "extraction_date"]

/-- The `csv_row` dict built by `flask_backend_api.py`'s `download_csv` for
one record: each column reads its source key with `result.get(key, '')`, so
the `email` column carries the record's `emails_found` value. -/
def bRecordCsvRow (r : RawRecord) : List (List Char) :=
  bCsvSourceKeys.map fun k => ((rget r k).getD "").data

/-- The full CSV stream `flask_backend_api.py`'s `download_csv` builds. -/
def bdownloadContent (results : List RawRecord) : List Char :=
  writeTable ((bCsvFieldnames.map String.data) :: results.map bRecordCsvRow)

/-- `download_csv` of `flask_backend_api.py`. -/
def bdownload_csv (jobs : BJobTable) (id : String) : DownloadResponse :=
  match findBJob jobs id with
  | none => .notFound
  | some job =>
    if job.status = .completed then .csvFile (bdownloadContent job.results)
    else .notReady

/-- `get_job_status` of `flask_backend_api.py`, keeping only the fields the
claims inspect (status, progress, error message, completion info). -/
def bget_job_status (jobs : BJobTable) (id : String) : StatusResponse :=
  match findBJob jobs id with
  | none => .notFound
  | some job =>
    if job.status = .completed then
      match job.completed_at with
      | none => .serverError
      | some _ =>
        .ok { job_id := id, status := job.status, progress := job.progress,
              completed_at := some (),
              results_count := some job.results.length,
              emails_found := none, websites_found := none, error_message := none }
    else if job.status = .failed then
      .ok { job_id := id, status := job.status, progress := job.progress,
            completed_at := none, results_count := none,
            emails_found := none, websites_found := none,
            error_message := job.error_message }
    else
      .ok { job_id := id, status := job.status, progress := job.progress,
            completed_at := none, results_count := none,
            emails_found := none, websites_found := none,
            error_message := none }

/-! ### System-level model of the tracker

`start_scraping` both registers the job and spawns its one background thread;
nothing else ever spawns a thread, and the reader endpoints never mutate the
table.  The state below records the job table together with the multiset of
job ids for which an execution unit was ever spawned; `Reachable` constrains
`submit` steps to fresh uuid draws. -/

/-- A background execution unit finishing applies `runJob` to its own job. -/
def updateJob (jobs : JobTable) (id : String) (o : ScrapeOutcome) : JobTable :=
  jobs.map fun p => if p.1 = id then (p.1, runJob p.2 o) else p

/-- The tracker's shared state: the job table plus the ids whose execution
unit has been spawned. -/
structure SysState where
  jobs : JobTable
  started : List String
deriving DecidableEq

/-- The state at server start: empty table, no threads. -/
def initState : SysState := { jobs := [], started := [] }

/-- The events that mutate tracker state: an HTTP submit (with its uuid draw)
or a background execution unit running to its end (with the scraper outcome).
Status/results/download requests are pure reads and change nothing. -/
inductive SysEvent where
  | submit (req : ScrapeRequest) (newId : String)
  | finish (id : String) (o : ScrapeOutcome)
deriving DecidableEq

/-- Apply one event to the tracker state. -/
def applyEvent (s : SysState) : SysEvent → SysState
  | .submit req newId =>
    let p := start_scraping s.jobs req newId
    match p.2 with
    | .started _ => { jobs := p.1, started := newId :: s.started }
    | .validationError _ => { jobs := p.1, started := s.started }
  | .finish id o => { jobs := updateJob s.jobs id o, started := s.started }

/-- Run a sequence of events. -/
def runEvents (s : SysState) (es : List SysEvent) : SysState :=
  es.foldl applyEvent s

/-- States the tracker can actually reach: `submit` only ever happens with a
fresh uuid (`uuid.uuid4()` never repeats an id already in the table). -/
inductive Reachable : SysState → Prop
  | init : Reachable initState
  | submit {s : SysState} (req : ScrapeRequest) (newId : String) :
      Reachable s → findJob s.jobs newId = none →
      Reachable (applyEvent s (.submit req newId))
  | finish {s : SysState} (id : String) (o : ScrapeOutcome) :
      Reachable s → Reachable (applyEvent s (.finish id o))

/-! ### Auxiliary executable predicates and concrete fixtures -/

/-- Executable chain check: `R` holds between every two adjacent elements. -/
def chainB {α : Type} (R : α → α → Bool) : List α → Bool
  | [] => true
  | [_] => true
  | a :: b :: rest => R a b && chainB R (b :: rest)

/-- Did the execution body reach the `job.status = 'completed'` assignment? -/
def reachedCompletion : ScrapeOutcome → Bool
  | .success _ => true
  | .failClose _ _ => true
  | _ => false

/-- A freshly submitted job, used as a concrete test subject. -/
def jEx : Job := mkJob "job-1" "Lahore" "Pakistan" "" "Software companies" 10

/-- A job whose scraper constructor raised. -/
def jFailed : Job := runJob jEx (.failInit "boom")

/-- A record with a comma and a quote in its values, exercising CSV escaping. -/
def rTricky : RawRecord :=
  [("name", "Acme, Inc"), ("email", "a@b.c"), ("website", "w\"x")]

/-- A job that completed with one tricky record. -/
def jDone : Job := runJob (mkJob "d1" "NYC" "USA" "" "Cafes" 20) (.success [rTricky])

/-- A fresh `flask_backend_api.py` job. -/
def bEx : BJob := mkBJob "b1" "Karachi" ["Technology & Software"] 250

/-- A `flask_backend_api.py` record carrying its emails under the
`emails_found` key, as `enhanced_lead_extractor.py` produces them. -/
def brEx : RawRecord := [("name", "Acme"), ("emails_found", "a@b.c")]

/-- A completed `flask_backend_api.py` job holding that record. -/
def bjDone : BJob := runBJob bEx (.success [brEx] [])

/-- A valid scrape request. -/
def reqValid : ScrapeRequest :=
  { location := "Austin", country := "USA", state := "", business_type := "Cafes",
    max_results := 10 }

/-- A scrape request whose location strips to the empty string. -/
def reqNoLoc : ScrapeRequest :=
  { location := "   ", country := "USA", state := "", business_type := "Cafes",
    max_results := 10 }

/-- A valid extract request for the `flask_backend_api.py` variant. -/
def breqValid : ExtractRequest :=
  { city := "Lahore", industries := ["Technology & Software"], maxResults := 250 }

/-- A reachable state holding one submitted job. -/
def sOne : SysState := applyEvent initState (.submit reqValid "a")

/-! ### Helper lemmas on the job table and the system model -/

theorem findJob_cons (k : String) (j : Job) (jobs : JobTable) (id : String) :
    findJob ((k, j) :: jobs) id = if k = id then some j else findJob jobs id := rfl

theorem updateJob_cons (k : String) (j : Job) (jobs : JobTable) (idU : String)
    (o : ScrapeOutcome) :
    updateJob ((k, j) :: jobs) idU o =
      (if k = idU then (k, runJob j o) else (k, j)) :: updateJob jobs idU o := by
  by_cases hk : k = idU <;> simp [updateJob, hk]

theorem findJob_eq_none_iff (jobs : JobTable) (id : String) :
    findJob jobs id = none ↔ id ∉ jobs.map Prod.fst := by
  induction jobs with
  | nil => simp [findJob]
  | cons p rest ih =>
    obtain ⟨k, j⟩ := p
    by_cases h : k = id
    · subst h
      simp [findJob_cons]
    · rw [findJob_cons, if_neg h, ih]
      constructor
      · intro hn hmem
        rcases List.mem_cons.mp hmem with he | hm
        · exact h he.symm
        · exact hn hm
      · intro hnot hm
        exact hnot (List.mem_cons_of_mem _ hm)

theorem findJob_cons_self (k : String) (j : Job) (jobs : JobTable) :
    findJob ((k, j) :: jobs) k = some j := by
  simp [findJob_cons]

theorem findJob_updateJob_isSome (jobs : JobTable) (idU : String)
    (o : ScrapeOutcome) (id : String) :
    (findJob (updateJob jobs idU o) id).isSome = (findJob jobs id).isSome := by
  induction jobs with
  | nil => simp [updateJob, findJob]
  | cons p rest ih =>
    obtain ⟨k, j⟩ := p
    rw [updateJob_cons]
    by_cases hk : k = idU
    · rw [if_pos hk]
      by_cases hid : k = id
      · simp [findJob_cons, hid]
      · simpa [findJob_cons, hid] using ih
    · rw [if_neg hk]
      by_cases hid : k = id
      · simp [findJob_cons, hid]
      · simpa [findJob_cons, hid] using ih

theorem findJob_updateJob_other (jobs : JobTable) (idU : String)
    (o : ScrapeOutcome) (id : String) (h : id ≠ idU) :
    findJob (updateJob jobs idU o) id = findJob jobs id := by
  induction jobs with
  | nil => simp [updateJob, findJob]
  | cons p rest ih =>
    obtain ⟨k, j⟩ := p
    rw [updateJob_cons]
    by_cases hk : k = idU
    · have hid : ¬ k = id := fun hh => h (hh ▸ hk)
      rw [if_pos hk]
      simpa [findJob_cons, hid] using ih
    · rw [if_neg hk]
      by_cases hid : k = id
      · simp [findJob_cons, hid]
      · simpa [findJob_cons, hid] using ih

theorem updateJob_keys (jobs : JobTable) (idU : String) (o : ScrapeOutcome) :
    (updateJob jobs idU o).map Prod.fst = jobs.map Prod.fst := by
  induction jobs with
  | nil => simp [updateJob]
  | cons p rest ih =>
    obtain ⟨k, j⟩ := p
    rw [updateJob_cons]
    by_cases hk : k = idU
    · rw [if_pos hk]
      simpa using ih
    · rw [if_neg hk]
      simpa using ih

/-- `start_scraping` either rejects with a 400 and leaves the table untouched,
or prepends exactly the new pending job. -/
theorem start_scraping_cases (jobs : JobTable) (req : ScrapeRequest) (newId : String) :
    (∃ msg, start_scraping jobs req newId = (jobs, .validationError msg)) ∨
    start_scraping jobs req newId =
      ((newId, mkJob newId (pyStrip req.location) (pyStrip req.country) (pyStrip req.state)
        (pyStrip req.business_type) req.max_results) :: jobs, .started newId) := by
  unfold start_scraping
  by_cases h1 : (pyStrip req.location) = ""
  · exact Or.inl ⟨"Location is required", by simp [h1]⟩
  · by_cases h2 : (pyStrip req.business_type) = ""
    · exact Or.inl ⟨"Business type is required", by simp [h1, h2]⟩
    · by_cases h3 : req.max_results ∈ allowedMax
      · exact Or.inr (by simp [h1, h2, h3])
      · exact Or.inl ⟨"Invalid max_results value", by simp [h1, h2, h3]⟩

/-- Reachability invariant: the spawned execution units are exactly the keys
of the job table, and no id ever gets a second unit. -/
theorem reachable_invariant {s : SysState} (h : Reachable s) :
    s.jobs.map Prod.fst = s.started ∧ s.started.Nodup := by
  induction h with
  | init => simp [initState]
  | @submit s req newId _ hfresh ih =>
    rcases start_scraping_cases s.jobs req newId with ⟨msg, heq⟩ | heq
    · simpa [applyEvent, heq] using ih
    · have hnotin : newId ∉ s.started := by
        have := (findJob_eq_none_iff s.jobs newId).mp hfresh
        simpa [ih.1] using this
      simp [applyEvent, heq, ih.1, ih.2, hnotin]
  | @finish s id o _ ih =>
    simpa [applyEvent, updateJob_keys] using ih

theorem applyEvent_preserves_isSome (s : SysState) (e : SysEvent) (id : String)
    (h : (findJob s.jobs id).isSome) :
    (findJob (applyEvent s e).jobs id).isSome := by
  cases e with
  | submit req newId =>
    rcases start_scraping_cases s.jobs req newId with ⟨msg, heq⟩ | heq
    · simpa [applyEvent, heq] using h
    · by_cases hid : newId = id
      · subst hid; simp [applyEvent, heq, findJob]
      · simpa [applyEvent, heq, findJob, hid] using h
  | finish idU o =>
    simpa [applyEvent, findJob_updateJob_isSome] using h

theorem runEvents_preserves_isSome (s : SysState) (es : List SysEvent) (id : String)
    (h : (findJob s.jobs id).isSome) :
    (findJob (runEvents s es).jobs id).isSome := by
  induction es generalizing s with
  | nil => simpa [runEvents] using h
  | cons e rest ih =>
    have := applyEvent_preserves_isSome s e id h
    simpa [runEvents] using ih (applyEvent s e) this

theorem get_job_status_ne_notFound (jobs : JobTable) (id : String)
    (h : (findJob jobs id).isSome) : get_job_status jobs id ≠ .notFound := by
  unfold get_job_status
  cases hf : findJob jobs id with
  | none => rw [hf] at h; simp at h
  | some job =>
    by_cases hc : job.status = Status.completed
    · simp only [hc, if_pos]
      cases job.completed_at <;> simp
    · by_cases hfl : job.status = Status.failed <;> simp [hc, hfl]

/-! ### CSV round-trip lemmas -/

theorem afterQuoted_comma (f rest : List Char) :
    afterQuoted f (',' :: rest) = (f, rest, false) := by
  cases rest <;> simp [afterQuoted]

theorem afterQuoted_crlf (f rest : List Char) :
    afterQuoted f ('\r' :: '\n' :: rest) = (f, rest, true) := by
  simp [afterQuoted]

theorem readQuoted_doubleQuotes (f : List Char) :
    ∀ rest : List Char, rest.head? ≠ some '"' →
    readQuoted (doubleQuotes f ++ '"' :: rest) = (f, rest) := by
  induction f with
  | nil =>
    intro rest h
    cases rest with
    | nil => rfl
    | cons c2 r =>
      have hc2 : ¬ c2 = '"' := by
        intro e; exact h (by simp [e])
      simp [doubleQuotes, readQuoted, hc2]
  | cons c t ih =>
    intro rest h
    by_cases hc : c = '"'
    · subst hc
      rw [show doubleQuotes ('"' :: t) ++ '"' :: rest =
          '"' :: '"' :: (doubleQuotes t ++ '"' :: rest) from by simp [doubleQuotes]]
      simp [readQuoted, ih rest h]
    · rw [show doubleQuotes (c :: t) ++ '"' :: rest =
          c :: (doubleQuotes t ++ '"' :: rest) from by simp [doubleQuotes, hc]]
      cases hE : doubleQuotes t ++ '"' :: rest with
      | nil => simp at hE
      | cons d x =>
        have := ih rest h
        rw [hE] at this
        simp [readQuoted, hc, this]

theorem readUnquoted_comma (f : List Char) :
    ∀ rest : List Char, (∀ c ∈ f, specialChar c = false) →
    readUnquoted (f ++ ',' :: rest) = (f, rest, false) := by
  induction f with
  | nil =>
    intro rest _
    cases rest <;> simp [readUnquoted]
  | cons c t ih =>
    intro rest h
    have hc := h c (List.mem_cons_self c t)
    have h1 : ¬ c = ',' := by intro e; subst e; simp [specialChar] at hc
    have h2 : ¬ c = '\r' := by intro e; subst e; simp [specialChar] at hc
    rw [show (c :: t) ++ ',' :: rest = c :: (t ++ ',' :: rest) from rfl]
    cases hE : t ++ ',' :: rest with
    | nil => simp at hE
    | cons d x =>
      have hrec := ih rest fun c2 hc2 => h c2 (List.mem_cons_of_mem _ hc2)
      rw [hE] at hrec
      simp [readUnquoted, h1, h2, hrec]

theorem readUnquoted_crlf (f : List Char) :
    ∀ rest : List Char, (∀ c ∈ f, specialChar c = false) →
    readUnquoted (f ++ '\r' :: '\n' :: rest) = (f, rest, true) := by
  induction f with
  | nil =>
    intro rest _
    simp [readUnquoted]
  | cons c t ih =>
    intro rest h
    have hc := h c (List.mem_cons_self c t)
    have h1 : ¬ c = ',' := by intro e; subst e; simp [specialChar] at hc
    have h2 : ¬ c = '\r' := by intro e; subst e; simp [specialChar] at hc
    rw [show (c :: t) ++ '\r' :: '\n' :: rest = c :: (t ++ '\r' :: '\n' :: rest) from rfl]
    cases hE : t ++ '\r' :: '\n' :: rest with
    | nil => simp at hE
    | cons d x =>
      have hrec := ih rest fun c2 hc2 => h c2 (List.mem_cons_of_mem _ hc2)
      rw [hE] at hrec
      simp [readUnquoted, h1, h2, hrec]

theorem readField_comma (f : List Char) (rest : List Char) :
    readField (escapeField f ++ ',' :: rest) = (f, rest, false) := by
  by_cases hq : f.any specialChar
  · rw [show escapeField f ++ ',' :: rest =
        '"' :: (doubleQuotes f ++ '"' :: (',' :: rest)) from by simp [escapeField, hq]]
    have hh : (',' :: rest).head? ≠ some '"' := by simp
    simp [readField, readQuoted_doubleQuotes f (',' :: rest) hh, afterQuoted_comma]
  · have hall : ∀ c ∈ f, specialChar c = false := by
      intro c hc
      by_contra hne
      exact hq (List.any_eq_true.mpr ⟨c, hc, by revert hne; cases specialChar c <;> simp⟩)
    rw [show escapeField f = f from by simp [escapeField, hq]]
    cases f with
    | nil =>
      simp only [List.nil_append, readField]
      rw [if_neg (by decide)]
      exact readUnquoted_comma [] rest (by simp)
    | cons c t =>
      have hcq : ¬ c = '"' := by
        intro e
        have := hall c (List.mem_cons_self c t)
        rw [e] at this
        simp [specialChar] at this
      simp only [List.cons_append, readField, if_neg hcq]
      exact readUnquoted_comma (c :: t) rest hall

theorem readField_crlf (f : List Char) (rest : List Char) :
    readField (escapeField f ++ '\r' :: '\n' :: rest) = (f, rest, true) := by
  by_cases hq : f.any specialChar
  · rw [show escapeField f ++ '\r' :: '\n' :: rest =
        '"' :: (doubleQuotes f ++ '"' :: ('\r' :: '\n' :: rest)) from by
      simp [escapeField, hq]]
    have hh : ('\r' :: '\n' :: rest).head? ≠ some '"' := by simp
    simp [readField, readQuoted_doubleQuotes f ('\r' :: '\n' :: rest) hh, afterQuoted_crlf]
  · have hall : ∀ c ∈ f, specialChar c = false := by
      intro c hc
      by_contra hne
      exact hq (List.any_eq_true.mpr ⟨c, hc, by revert hne; cases specialChar c <;> simp⟩)
    rw [show escapeField f = f from by simp [escapeField, hq]]
    cases f with
    | nil =>
      simp only [List.nil_append, readField]
      rw [if_neg (by decide)]
      exact readUnquoted_crlf [] rest (by simp)
    | cons c t =>
      have hcq : ¬ c = '"' := by
        intro e
        have := hall c (List.mem_cons_self c t)
        rw [e] at this
        simp [specialChar] at this
      simp only [List.cons_append, readField, if_neg hcq]
      exact readUnquoted_crlf (c :: t) rest hall

theorem readRowAux_write (fs : List (List Char)) :
    ∀ (fuel : Nat) (rest : List Char), fs ≠ [] → fs.length ≤ fuel →
    readRowAux fuel (writeFields fs ++ rest) = (fs, rest) := by
  induction fs with
  | nil => intro fuel rest h; exact absurd rfl h
  | cons f t ih =>
    intro fuel rest _ hlen
    cases fuel with
    | zero => simp at hlen
    | succ k =>
      cases t with
      | nil =>
        rw [show writeFields [f] ++ rest = escapeField f ++ '\r' :: '\n' :: rest from by
          simp [writeFields]]
        simp [readRowAux, readField_crlf]
      | cons f2 t2 =>
        rw [show writeFields (f :: f2 :: t2) ++ rest =
            escapeField f ++ ',' :: (writeFields (f2 :: t2) ++ rest) from by
          simp [writeFields]]
        have hk : (f2 :: t2).length ≤ k := by
          simp only [List.length_cons] at hlen ⊢
          omega
        simp [readRowAux, readField_comma, ih k rest (by simp) hk]

theorem writeFields_length (fs : List (List Char)) :
    fs.length + 1 ≤ (writeFields fs).length := by
  induction fs with
  | nil => simp [writeFields]
  | cons f t ih =>
    cases t with
    | nil => simp [writeFields]
    | cons f2 t2 =>
      simp only [writeFields, List.length_append, List.length_cons] at ih ⊢
      omega

theorem writeFields_ne_nil (fs : List (List Char)) : writeFields fs ≠ [] := by
  have h := writeFields_length fs
  intro he
  rw [he] at h
  simp at h

theorem parseRowsAux_write (rows : List (List (List Char))) :
    ∀ fuel : Nat, (∀ r ∈ rows, r ≠ []) → rows.length ≤ fuel →
    parseRowsAux fuel (writeTable rows) = rows := by
  induction rows with
  | nil =>
    intro fuel _ _
    cases fuel <;> simp [parseRowsAux, writeTable]
  | cons r rs ih =>
    intro fuel hne hlen
    cases fuel with
    | zero => simp at hlen
    | succ k =>
      have hemp : (writeTable (r :: rs)).isEmpty = false := by
        rw [show writeTable (r :: rs) = writeFields r ++ writeTable rs from rfl]
        cases he : writeFields r with
        | nil => exact absurd he (writeFields_ne_nil r)
        | cons c cs => simp
      have hread : readRow (writeTable (r :: rs)) = (r, writeTable rs) := by
        rw [show writeTable (r :: rs) = writeFields r ++ writeTable rs from rfl]
        unfold readRow
        apply readRowAux_write r _ _ (hne r (List.mem_cons_self r rs))
        have h1 := writeFields_length r
        simp only [List.length_append]
        omega
      have hstep : parseRowsAux (k + 1) (writeTable (r :: rs)) =
          (readRow (writeTable (r :: rs))).1 ::
            parseRowsAux k (readRow (writeTable (r :: rs))).2 := by
        simp [parseRowsAux, hemp]
      rw [hstep, hread]
      have hk : rs.length ≤ k := by
        simp only [List.length_cons] at hlen
        omega
      rw [ih k (fun r2 h2 => hne r2 (List.mem_cons_of_mem _ h2)) hk]

theorem writeTable_length (rows : List (List (List Char))) :
    rows.length ≤ (writeTable rows).length := by
  induction rows with
  | nil => simp [writeTable]
  | cons r rs ih =>
    have h := writeFields_length r
    simp only [writeTable, List.length_append, List.length_cons]
    omega

/-- Round trip: parsing a serialized table recovers exactly the original rows
(each row nonempty, as every row written by the endpoints has eight fields). -/
theorem parseCsv_writeTable (rows : List (List (List Char)))
    (h : ∀ r ∈ rows, r ≠ []) : parseCsv (writeTable rows) = rows := by
  unfold parseCsv
  exact parseRowsAux_write rows _ h (writeTable_length rows)

/-! ### The claims -/

/-- Claim C1 as stated is false on the code: in `run_scraping_job` the
`scraper.close()` call sits in a `finally` block inside the outer `try`, after
the job has already been marked `completed`; when `close()` raises, the outer
`except` moves the job from `completed` to `failed`.  The concrete trace below
exhibits a job that leaves the terminal state `completed`. -/
theorem C1_counterexample :
    statusTrace jEx (.failClose [] "boom") =
      [.running, .running, .running, .running, .running, .running,
       .completed, .completed, .completed, .failed, .failed, .failed]
    ∧ chainB
        (fun a b => decide (statusRank a ≤ statusRank b) &&
          (!(decide (a = .completed) || decide (a = .failed)) || decide (b = a)))
        (jEx.status :: statusTrace jEx (.failClose [] "boom")) = false := by
  decide

/-- Claim C1 amended: along every execution the status rank only moves forward
through `pending → running → {completed, failed}`; `failed` is never left; and
`completed` is never left except when the scraper's cleanup (`close()`) raises
after a successful run, moving the job from `completed` to `failed`.  Moreover
exactly one execution unit is ever spawned for a given job id: in every
reachable tracker state the list of spawned unit ids has no duplicates. -/
theorem C1_status_forward_once :
    (∀ (j : Job) (o : ScrapeOutcome), j.status = .pending →
      chainB (fun a b => decide (statusRank a ≤ statusRank b))
        (j.status :: statusTrace j o) = true
      ∧ chainB (fun a b => !(decide (a = Status.failed)) || decide (b = Status.failed))
        (j.status :: statusTrace j o) = true
      ∧ (chainB (fun a b => !(decide (a = Status.completed)) || decide (b = Status.completed))
          (j.status :: statusTrace j o) = true
         ∨ ∃ recs msg, o = .failClose recs msg))
    ∧ (∀ s : SysState, Reachable s → s.started.Nodup) := by
  constructor
  · intro j o h
    cases o with
    | success recs =>
      refine ⟨?_, ?_, Or.inl ?_⟩ <;> simp [statusTrace, runTrace, h, chainB, statusRank]
    | failInit m =>
      refine ⟨?_, ?_, Or.inl ?_⟩ <;> simp [statusTrace, runTrace, h, chainB, statusRank]
    | failSearch m =>
      refine ⟨?_, ?_, Or.inl ?_⟩ <;> simp [statusTrace, runTrace, h, chainB, statusRank]
    | failExtract m =>
      refine ⟨?_, ?_, Or.inl ?_⟩ <;> simp [statusTrace, runTrace, h, chainB, statusRank]
    | failClose recs m =>
      refine ⟨?_, ?_, Or.inr ⟨recs, m, rfl⟩⟩ <;>
        simp [statusTrace, runTrace, h, chainB, statusRank]
  · intro s hs
    exact (reachable_invariant hs).2

/-- Witness for C1 at a concrete job, outcome and reachable state. -/
theorem C1_witness :
    chainB (fun a b => decide (statusRank a ≤ statusRank b))
      (jEx.status :: statusTrace jEx (.success [])) = true
    ∧ initState.started.Nodup := by
  have h := C1_status_forward_once
  exact ⟨(h.1 jEx (.success []) rfl).1, h.2 initState Reachable.init⟩

/-- Claim C2: for a known job in any state other than `completed` (pending,
running or failed), the results endpoint and the CSV download endpoint both
answer `Job not completed yet` with HTTP 400 and hand out no records. -/
theorem C2_not_ready (jobs : JobTable) (id : String) (job : Job)
    (hfind : findJob jobs id = some job) (hne : job.status ≠ .completed) :
    get_results jobs id = .notReady
    ∧ download_csv jobs id = .notReady
    ∧ resultsHttp (get_results jobs id) = 400
    ∧ downloadHttp (download_csv jobs id) = 400
    ∧ (∀ recs st, get_results jobs id ≠ .ok recs st)
    ∧ (∀ content, download_csv jobs id ≠ .csvFile content) := by
  have h1 : get_results jobs id = .notReady := by
    simp [get_results, hfind, hne]
  have h2 : download_csv jobs id = .notReady := by
    simp [download_csv, hfind, hne]
  refine ⟨h1, h2, ?_, ?_, ?_, ?_⟩
  · rw [h1]; rfl
  · rw [h2]; rfl
  · intro recs st hko; rw [h1] at hko; exact ResultsResponse.noConfusion hko
  · intro content hko; rw [h2] at hko; exact DownloadResponse.noConfusion hko

/-- Witness for C2 at a concrete pending job. -/
theorem C2_witness :
    get_results [("p1", jEx)] "p1" = .notReady
    ∧ download_csv [("p1", jEx)] "p1" = .notReady := by
  have h := C2_not_ready [("p1", jEx)] "p1" jEx (by decide) (by decide)
  exact ⟨h.1, h.2.1⟩

/-- Claim C3: a job id that was never issued by `submit` is absent from every
reachable job table (the spawned ids are exactly the table keys), and all
three reader endpoints answer `Job not found` with HTTP 404 — for both
wrappers. -/
theorem C3_not_found :
    (∀ s : SysState, Reachable s → ∀ id : String, id ∉ s.started →
      get_job_status s.jobs id = .notFound
      ∧ get_results s.jobs id = .notFound
      ∧ download_csv s.jobs id = .notFound
      ∧ statusHttp (get_job_status s.jobs id) = 404
      ∧ resultsHttp (get_results s.jobs id) = 404
      ∧ downloadHttp (download_csv s.jobs id) = 404)
    ∧ (∀ (bjobs : BJobTable) (id : String), findBJob bjobs id = none →
      bget_job_status bjobs id = .notFound
      ∧ bget_results bjobs id = .notFound
      ∧ bdownload_csv bjobs id = .notFound) := by
  constructor
  · intro s hs id hid
    have hkeys := (reachable_invariant hs).1
    have hnone : findJob s.jobs id = none := by
      rw [findJob_eq_none_iff, hkeys]
      exact hid
    refine ⟨?_, ?_, ?_, ?_, ?_, ?_⟩ <;>
      simp [get_job_status, get_results, download_csv, statusHttp, resultsHttp,
        downloadHttp, hnone]
  · intro bjobs id h
    refine ⟨?_, ?_, ?_⟩ <;> simp [bget_job_status, bget_results, bdownload_csv, h]

/-- Witness for C3 at the initial state and an id never issued. -/
theorem C3_witness :
    get_job_status initState.jobs "nonexistent-id" = .notFound
    ∧ bget_results [] "nonexistent-id" = .notFound := by
  have h := C3_not_found
  exact ⟨(h.1 initState Reachable.init "nonexistent-id" (by simp [initState])).1,
    (h.2 [] "nonexistent-id" rfl).2.1⟩

/-- Claim C4: `start_scraping` checks the stripped location, the stripped
business type, and membership of the result cap in `[10, 20, 50, 80, 100]`,
in source order; every failed check answers 400 and leaves the table
untouched, and a submission passing all checks stores exactly one new job in
`pending` state and returns its id.  `start_extraction` likewise checks its
stripped city and the non-emptiness of the industry selection (its result cap
is parsed but unconstrained, so the cap check is the trivial one there). -/
theorem C4_submit_validation :
    (∀ (jobs : JobTable) (req : ScrapeRequest) (newId : String),
      ((pyStrip req.location) = "" →
        start_scraping jobs req newId = (jobs, .validationError "Location is required"))
      ∧ ((pyStrip req.location) ≠ "" → (pyStrip req.business_type) = "" →
        start_scraping jobs req newId = (jobs, .validationError "Business type is required"))
      ∧ ((pyStrip req.location) ≠ "" → (pyStrip req.business_type) ≠ "" →
          req.max_results ∉ allowedMax →
        start_scraping jobs req newId = (jobs, .validationError "Invalid max_results value"))
      ∧ ((pyStrip req.location) ≠ "" → (pyStrip req.business_type) ≠ "" →
          req.max_results ∈ allowedMax →
        start_scraping jobs req newId =
          ((newId, mkJob newId (pyStrip req.location) (pyStrip req.country) (pyStrip req.state)
            (pyStrip req.business_type) req.max_results) :: jobs, .started newId)
        ∧ (mkJob newId (pyStrip req.location) (pyStrip req.country) (pyStrip req.state)
            (pyStrip req.business_type) req.max_results).status = .pending)
      ∧ (∀ msg, scrapeHttp (.validationError msg) = 400))
    ∧ (∀ (bjobs : BJobTable) (req : ExtractRequest) (newId : String),
      ((pyStrip req.city) = "" →
        start_extraction bjobs req newId = (bjobs, .validationError "City is required"))
      ∧ ((pyStrip req.city) ≠ "" → req.industries = [] →
        start_extraction bjobs req newId =
          (bjobs, .validationError "At least one industry must be selected"))
      ∧ ((pyStrip req.city) ≠ "" → req.industries ≠ [] →
        start_extraction bjobs req newId =
          ((newId, mkBJob newId (pyStrip req.city) req.industries req.maxResults) :: bjobs,
           .started newId)
        ∧ (mkBJob newId (pyStrip req.city) req.industries req.maxResults).status = .pending)) := by
  constructor
  · intro jobs req newId
    refine ⟨?_, ?_, ?_, ?_, ?_⟩
    · intro h1
      simp [start_scraping, h1]
    · intro h1 h2
      simp [start_scraping, h1, h2]
    · intro h1 h2 h3
      simp [start_scraping, h1, h2, h3]
    · intro h1 h2 h3
      exact ⟨by simp [start_scraping, h1, h2, h3], rfl⟩
    · intro msg
      rfl
  · intro bjobs req newId
    refine ⟨?_, ?_, ?_⟩
    · intro h1
      simp [start_extraction, h1]
    · intro h1 h2
      simp [start_extraction, h1, h2]
    · intro h1 h2
      exact ⟨by simp [start_extraction, h1, h2], rfl⟩

/-- Witness for C4: an empty-location submission is rejected without creating
a job, and a valid submission creates a pending job. -/
theorem C4_witness :
    start_scraping [] reqNoLoc "id1" = ([], .validationError "Location is required")
    ∧ start_scraping [] reqValid "id1" =
        ([("id1", mkJob "id1" "Austin" "USA" "" "Cafes" 10)], .started "id1")
    ∧ start_extraction [] breqValid "id2" =
        ([("id2", mkBJob "id2" "Lahore" ["Technology & Software"] 250)], .started "id2") := by
  have h := C4_submit_validation
  refine ⟨h.1 [] reqNoLoc "id1" |>.1 (by decide), ?_, ?_⟩
  · have h2 := (h.1 [] reqValid "id1").2.2.2.1 (by decide) (by decide) (by decide)
    exact h2.1
  · have h3 := (h.2 [] breqValid "id2").2.2 (by decide) (by decide)
    exact h3.1

/-- Claim C5: every exception raised during a job's execution is captured into
the job's `error_message` and the job is marked `failed`; the status endpoint
then reports it with HTTP 200 and `status: failed` in the body (never a 500),
the results/download endpoints answer 400 (never a 500), and a finishing
execution unit leaves every other job's table entry untouched. -/
theorem C5_failure_surfacing (jobs : JobTable) (id : String) (job : Job)
    (j : Job) (o : ScrapeOutcome) (m : String)
    (hm : failureMsg o = some m)
    (hfind : findJob jobs id = some job) (hst : job.status = .failed) :
    (runJob j o).status = .failed
    ∧ (runJob j o).error_message = some m
    ∧ (∃ v : StatusView, get_job_status jobs id = .ok v
        ∧ v.status = .failed ∧ v.error_message = job.error_message)
    ∧ statusHttp (get_job_status jobs id) = 200
    ∧ resultsHttp (get_results jobs id) = 400
    ∧ downloadHttp (download_csv jobs id) = 400
    ∧ (∀ id2, id2 ≠ id → findJob (updateJob jobs id o) id2 = findJob jobs id2) := by
  have hrun : (runJob j o).status = .failed ∧ (runJob j o).error_message = some m := by
    cases o with
    | success recs => simp [failureMsg] at hm
    | failInit m2 =>
      simp [failureMsg] at hm
      subst hm
      exact ⟨rfl, rfl⟩
    | failSearch m2 =>
      simp [failureMsg] at hm
      subst hm
      exact ⟨rfl, rfl⟩
    | failExtract m2 =>
      simp [failureMsg] at hm
      subst hm
      exact ⟨rfl, rfl⟩
    | failClose recs m2 =>
      simp [failureMsg] at hm
      subst hm
      exact ⟨rfl, rfl⟩
  have hnc : ¬ job.status = .completed := by simp [hst]
  have hview : get_job_status jobs id =
      .ok { job_id := id, status := .failed, progress := job.progress,
            completed_at := none, results_count := none,
            emails_found := none, websites_found := none,
            error_message := job.error_message } := by
    simp [get_job_status, hfind, hnc, hst]
  have hres : get_results jobs id = .notReady := by
    simp [get_results, hfind, hnc]
  have hdl : download_csv jobs id = .notReady := by
    simp [download_csv, hfind, hnc]
  refine ⟨hrun.1, hrun.2, ⟨_, hview, rfl, rfl⟩, ?_, ?_, ?_, ?_⟩
  · rw [hview]; rfl
  · rw [hres]; rfl
  · rw [hdl]; rfl
  · intro id2 hne
    exact findJob_updateJob_other jobs id o id2 hne

/-- Witness for C5 at a concrete failed job and a second, unaffected job id. -/
theorem C5_witness :
    (runJob jEx (.failInit "boom")).status = .failed
    ∧ (runJob jEx (.failInit "boom")).error_message = some "boom"
    ∧ statusHttp (get_job_status [("f1", jFailed)] "f1") = 200
    ∧ findJob (updateJob [("f1", jFailed)] "f1" (.failInit "boom")) "other" =
        findJob [("f1", jFailed)] "other" := by
  have h := C5_failure_surfacing [("f1", jFailed)] "f1" jFailed jEx
    (.failInit "boom") "boom" rfl (by decide) (by decide)
  exact ⟨h.1, h.2.1, h.2.2.2.1, h.2.2.2.2.2.2 "other" (by decide)⟩

/-- Claim C6 as stated is false on the code: the `except` block of
`run_scraping_job` ends with `job.progress = 0`, so a job that fails at
progress 20 ends with progress 0, not with the value it held when the failure
occurred.  The concrete trace below holds progress 20 when the failure is
observed and ends at 0. -/
theorem C6_counterexample :
    (runTrace jEx (.failSearch "timeout")).map (fun s => (s.status, s.progress)) =
      [(.running, 0), (.running, 10), (.running, 20),
       (.failed, 20), (.failed, 20), (.failed, 0)]
    ∧ (runJob jEx (.failSearch "timeout")).progress = 0
    ∧ ¬ (runJob jEx (.failSearch "timeout")).progress = 20 := by
  decide

/-- Claim C6 amended: on every failure raised during execution, the execution
unit marks the job `failed` and resets `progress` to 0 (in both wrappers). -/
theorem C6_progress_reset (j : Job) (o : ScrapeOutcome) (m : String)
    (hm : failureMsg o = some m)
    (bj : BJob) (bo : ExtractOutcome) (bm : String)
    (hbm : bFailureMsg bo = some bm) :
    (runJob j o).status = .failed ∧ (runJob j o).progress = 0
    ∧ (runBJob bj bo).status = .failed ∧ (runBJob bj bo).progress = 0 := by
  have h1 : (runJob j o).status = .failed ∧ (runJob j o).progress = 0 := by
    cases o <;> simp [failureMsg] at hm <;> exact ⟨rfl, rfl⟩
  have h2 : (runBJob bj bo).status = .failed ∧ (runBJob bj bo).progress = 0 := by
    cases bo <;> simp [bFailureMsg] at hbm <;> exact ⟨rfl, rfl⟩
  exact ⟨h1.1, h1.2, h2.1, h2.2⟩

/-- Witness for C6 at concrete failing outcomes in both wrappers. -/
theorem C6_witness :
    (runJob jEx (.failExtract "x")).progress = 0
    ∧ (runBJob bEx (.failInit "y")).progress = 0 := by
  have h := C6_progress_reset jEx (.failExtract "x") "x" rfl bEx (.failInit "y") "y" rfl
  exact ⟨h.2.1, h.2.2.2⟩

/-- Claim C7 as stated is false on the code: the failure path of
`run_scraping_job` (and of `run_extraction`) never assigns `completed_at`, so
a job that fails before completing reaches the terminal state `failed` with
`completed_at` still unset. -/
theorem C7_counterexample :
    (runJob jEx (.failInit "boom")).status = .failed
    ∧ (runJob jEx (.failInit "boom")).completed_at = none := by
  decide

/-- Claim C7 amended: `completed_at` is set exactly by the completion
assignment — it becomes set when the job transitions to `completed` (and is
retained if a later cleanup failure marks the job `failed`), it is never
cleared along a trace, and the failure path leaves it untouched, so a job
failing before completion keeps it unset.  Same for `run_extraction`, where
only `success` reaches completion. -/
theorem C7_completed_at (j : Job) (o : ScrapeOutcome) (h0 : j.completed_at = none)
    (bj : BJob) (hb0 : bj.completed_at = none) (bo : ExtractOutcome) :
    ((runJob j o).completed_at = some () ↔ reachedCompletion o = true)
    ∧ ((runJob j o).status = .completed → (runJob j o).completed_at = some ())
    ∧ chainB (fun a b =>
        !(decide (a.completed_at = some ())) || decide (b.completed_at = some ()))
      (j :: runTrace j o) = true
    ∧ ((runBJob bj bo).completed_at = some () ↔ ∃ l st, bo = .success l st)
    ∧ ((runBJob bj bo).status = .completed → (runBJob bj bo).completed_at = some ()) := by
  refine ⟨?_, ?_, ?_, ?_, ?_⟩
  · cases o <;> simp [runJob, runTrace, reachedCompletion, h0]
  · cases o <;> simp [runJob, runTrace, h0]
  · cases o <;> simp [runTrace, chainB, h0]
  · cases bo <;> simp [runBJob, runBTrace, hb0]
  · cases bo <;> simp [runBJob, runBTrace, hb0]

/-- Witness for C7 at concrete outcomes in both wrappers. -/
theorem C7_witness :
    ((runJob jEx (.success [])).completed_at = some () ↔
      reachedCompletion (.success []) = true)
    ∧ ((runBJob bEx (.failExtract "z")).completed_at = some () ↔
        ∃ l st, ExtractOutcome.failExtract "z" = .success l st) := by
  have h := C7_completed_at jEx (.success []) rfl bEx rfl (.failExtract "z")
  exact ⟨h.1, h.2.2.2.1⟩

/-- Claim C8: a valid submission stores the new pending job in the table as
part of `start_scraping` itself — before the job id is returned and without
waiting on the scraper — and no later event (further submissions or finishing
execution units) ever removes a table entry, so `get_status` on a returned id
never answers `Job not found`. -/
theorem C8_submit_registers (jobs : JobTable) (req : ScrapeRequest) (newId : String)
    (hv : (pyStrip req.location) ≠ "" ∧ (pyStrip req.business_type) ≠ "" ∧
      req.max_results ∈ allowedMax) :
    (start_scraping jobs req newId).2 = .started newId
    ∧ findJob (start_scraping jobs req newId).1 newId =
        some (mkJob newId (pyStrip req.location) (pyStrip req.country)
          (pyStrip req.state) (pyStrip req.business_type) req.max_results)
    ∧ (findJob (start_scraping jobs req newId).1 newId).isSome = true
    ∧ (∀ (s : SysState) (es : List SysEvent) (id : String),
        (findJob s.jobs id).isSome →
        get_job_status (runEvents s es).jobs id ≠ .notFound) := by
  obtain ⟨h1, h2, h3⟩ := hv
  have heq : start_scraping jobs req newId =
      ((newId, mkJob newId (pyStrip req.location) (pyStrip req.country)
        (pyStrip req.state) (pyStrip req.business_type) req.max_results) :: jobs,
       .started newId) := by
    simp [start_scraping, h1, h2, h3]
  refine ⟨by rw [heq], ?_, ?_, ?_⟩
  · rw [heq]
    exact findJob_cons_self _ _ _
  · rw [heq, findJob_cons_self]
    rfl
  · intro s es id h
    exact get_job_status_ne_notFound _ _ (runEvents_preserves_isSome s es id h)

/-- Witness for C8 at a concrete valid request and a concrete event sequence. -/
theorem C8_witness :
    (start_scraping [] reqValid "a").2 = .started "a"
    ∧ (findJob (start_scraping [] reqValid "a").1 "a").isSome = true
    ∧ get_job_status
        (runEvents sOne [.finish "a" (.failInit "x"),
          .submit reqValid "b"]).jobs "a" ≠ .notFound := by
  have h := C8_submit_registers [] reqValid "a" ⟨by decide, by decide, by decide⟩
  exact ⟨h.1, h.2.2.1,
    h.2.2.2 sOne [.finish "a" (.failInit "x"), .submit reqValid "b"] "a" (by decide)⟩

/-- Claim C9 as stated is false on `flask_backend_api.py`: its `download_csv`
fills the `email` column from `result.get('emails_found', '')`, while the
extractor's records carry their emails under the `emails_found` key and have
no `email` key at all.  For the concrete completed job below, the parsed row
holds `a@b.c` in the `email` column even though the record's own `email`
field is missing — so the parsed field values are not the record's values
with the empty string for missing fields. -/
theorem C9_counterexample :
    bdownload_csv [("b1", bjDone)] "b1" = .csvFile (bdownloadContent bjDone.results)
    ∧ rget brEx "email" = none
    ∧ parseCsv (bdownloadContent bjDone.results) =
        [bCsvFieldnames.map String.data,
         [("Acme").data, [], [], ("a@b.c").data, [], [], [], []]]
    ∧ ¬ parseCsv (bdownloadContent bjDone.results) =
        (bCsvFieldnames.map String.data) ::
          bjDone.results.map
            (fun r => bCsvFieldnames.map fun f => ((rget r f).getD "").data) := by
  decide

/-- Claim C9 amended: for a completed job, each download endpoint serves
exactly the serialization of its fixed eight-column header followed by one
row per record of `get_results`, each value quoted and double-quote-escaped
when it contains a delimiter, quote or line break, and parsing the stream
recovers the header and the rows exactly.  In `google_map_flask_api.py` the
row values are the record's values under the header's own field names, with
the empty string for missing fields; in `flask_backend_api.py` the same holds
except that the `email` column is filled from the record's `emails_found`
value (the record's `email` key, if any, is ignored). -/
theorem C9_csv_roundtrip (jobs : JobTable) (id : String) (job : Job)
    (hfind : findJob jobs id = some job) (hc : job.status = .completed)
    (bjobs : BJobTable) (bid : String) (bjob : BJob)
    (hbfind : findBJob bjobs bid = some bjob) (hbc : bjob.status = .completed) :
    download_csv jobs id = .csvFile (downloadContent job.results)
    ∧ get_results jobs id = .ok job.results (statsOf job.results)
    ∧ headerRow = csvFieldnames.map String.data
    ∧ (∀ r, recordCsvRow r = csvFieldnames.map fun f => ((rget r f).getD "").data)
    ∧ parseCsv (downloadContent job.results) =
        headerRow :: job.results.map recordCsvRow
    ∧ bdownload_csv bjobs bid = .csvFile (bdownloadContent bjob.results)
    ∧ bget_results bjobs bid = .ok bjob.results (statsOf bjob.results)
    ∧ (∀ r, bRecordCsvRow r = bCsvSourceKeys.map fun k => ((rget r k).getD "").data)
    ∧ parseCsv (bdownloadContent bjob.results) =
        (bCsvFieldnames.map String.data) :: bjob.results.map bRecordCsvRow := by
  have hdl : download_csv jobs id = .csvFile (downloadContent job.results) := by
    simp [download_csv, hfind, hc]
  have hgr : get_results jobs id = .ok job.results (statsOf job.results) := by
    simp [get_results, hfind, hc]
  have hne : ∀ r2 ∈ headerRow :: job.results.map recordCsvRow, r2 ≠ [] := by
    intro r2 hr2
    rcases List.mem_cons.mp hr2 with he | hm
    · subst he
      simp [headerRow, csvFieldnames]
    · obtain ⟨r0, _, he⟩ := List.mem_map.mp hm
      rw [← he]
      simp [recordCsvRow, csvFieldnames]
  have hbdl : bdownload_csv bjobs bid = .csvFile (bdownloadContent bjob.results) := by
    simp [bdownload_csv, hbfind, hbc]
  have hbgr : bget_results bjobs bid = .ok bjob.results (statsOf bjob.results) := by
    simp [bget_results, hbfind, hbc]
  have hbne : ∀ r2 ∈ (bCsvFieldnames.map String.data) :: bjob.results.map bRecordCsvRow,
      r2 ≠ [] := by
    intro r2 hr2
    rcases List.mem_cons.mp hr2 with he | hm
    · subst he
      simp [bCsvFieldnames]
    · obtain ⟨r0, _, he⟩ := List.mem_map.mp hm
      rw [← he]
      simp [bRecordCsvRow, bCsvSourceKeys]
  exact ⟨hdl, hgr, rfl, fun r => rfl, parseCsv_writeTable _ hne,
    hbdl, hbgr, fun r => rfl, parseCsv_writeTable _ hbne⟩

/-- Witness for C9 at completed jobs in both wrappers, one record containing
a comma and a double quote and one carrying its emails under `emails_found`. -/
theorem C9_witness :
    download_csv [("d1", jDone)] "d1" = .csvFile (downloadContent jDone.results)
    ∧ parseCsv (downloadContent jDone.results) =
        headerRow :: jDone.results.map recordCsvRow
    ∧ parseCsv (bdownloadContent bjDone.results) =
        (bCsvFieldnames.map String.data) :: bjDone.results.map bRecordCsvRow := by
  have h := C9_csv_roundtrip [("d1", jDone)] "d1" jDone (by decide) (by decide)
    [("b1", bjDone)] "b1" bjDone (by decide) (by decide)
  exact ⟨h.1, h.2.2.2.2.1, h.2.2.2.2.2.2.2.2⟩

/-- Claim C10: for a completed job, the statistics of the status and results
endpoints are computed from the stored records: `results_count` and
`statistics.total` equal the number of records, and the email, website and
LinkedIn counters each equal the number of records whose corresponding field
value is present and non-empty. -/
theorem C10_stats (jobs : JobTable) (id : String) (job : Job)
    (hfind : findJob jobs id = some job) (hc : job.status = .completed)
    (hca : job.completed_at = some ()) :
    get_results jobs id = .ok job.results (statsOf job.results)
    ∧ (statsOf job.results).total = job.results.length
    ∧ (statsOf job.results).with_emails =
        (job.results.filter fun r => truthy (rget r "email")).length
    ∧ (statsOf job.results).with_websites =
        (job.results.filter fun r => truthy (rget r "website")).length
    ∧ (statsOf job.results).with_linkedin =
        (job.results.filter fun r => truthy (rget r "linkedin")).length
    ∧ (∃ v : StatusView, get_job_status jobs id = .ok v
        ∧ v.results_count = some job.results.length
        ∧ v.emails_found =
            some (job.results.filter fun r => truthy (rget r "email")).length
        ∧ v.websites_found =
            some (job.results.filter fun r => truthy (rget r "website")).length) := by
  have hgr : get_results jobs id = .ok job.results (statsOf job.results) := by
    simp [get_results, hfind, hc]
  have hview : get_job_status jobs id =
      .ok { job_id := id, status := job.status, progress := job.progress,
            completed_at := some (),
            results_count := some job.results.length,
            emails_found := some (job.results.countP fun r => truthy (rget r "email")),
            websites_found := some (job.results.countP fun r => truthy (rget r "website")),
            error_message := none } := by
    simp [get_job_status, hfind, hc, hca]
  refine ⟨hgr, rfl, ?_, ?_, ?_, ⟨_, hview, rfl, ?_, ?_⟩⟩
  · simp [statsOf, List.countP_eq_length_filter]
  · simp [statsOf, List.countP_eq_length_filter]
  · simp [statsOf, List.countP_eq_length_filter]
  · simp [List.countP_eq_length_filter]
  · simp [List.countP_eq_length_filter]

/-- Witness for C10 at a concrete completed job. -/
theorem C10_witness :
    get_results [("d1", jDone)] "d1" = .ok jDone.results (statsOf jDone.results)
    ∧ (statsOf jDone.results).with_emails =
        (jDone.results.filter fun r => truthy (rget r "email")).length := by
  have h := C10_stats [("d1", jDone)] "d1" jDone (by decide) (by decide) (by decide)
  exact ⟨h.1, h.2.2.1⟩
